import Mathlib

/-!
Verification of the GlueOps storypoints webhook relay.

The Python sources embedded here are:
  - app/utils/github/auth.py   : JWT minting and the installation-token manager
  - app/utils/github/hooks.py  : delivery-log pagination, failure selection, retries
  - app/utils/github/projects.py : GraphQL project mutations
  - app/main.py                : the webhook HTTP handler

External effects (jwt.encode, requests, strptime, wall-clock time) are passed
in as explicit parameters; machine state that Python mutates is threaded
explicitly.  Python truthiness on optional strings/ints is modelled by
dedicated predicates.
-/

/-- Truthiness of `Optional[str]` in Python: `None` and `""` are falsy. -/
def strTruthy : Option String → Bool
  | none => false
  | some s => s ≠ ""

/-- Truthiness of `Optional[int]` in Python: `None` and `0` are falsy. -/
def intTruthy : Option Int → Bool
  | none => false
  | some n => n ≠ 0

/-- Python `f"...{x}..."` interpolation of an `Optional[str]`: `None` prints
as the literal string `None`. -/
def pyStr : Option String → String
  | none => "None"
  | some s => s

/-- The header dictionary both `github_auth_jwt` and
`GitHubInstallationTokenManager.get_headers` return. -/
structure Headers where
  accept : String
  authorization : String
  api_version : String
deriving DecidableEq, Repr

/-- The JWT claim set built in `github_auth_jwt` (auth.py lines 31-35). -/
structure JwtPayload where
  iat : Int
  exp : Int
  iss : String
deriving DecidableEq, Repr

/-- `jwt.encode(payload, key, algorithm)` is an external library call; an
encoder is any function of the payload, the signing key and the algorithm
name. -/
def JwtEncoder : Type := JwtPayload → String → String → String

/-- The payload dictionary of auth.py lines 31-35:
`iat = now - 60`, `exp = now + 60*8`, `iss = github_app_id`,
where `now = int(datetime.datetime.utcnow().timestamp())`. -/
def githubAuthJwtPayload (github_app_id : String) (now : Int) : JwtPayload :=
  { iat := now - 60, exp := now + 60 * 8, iss := github_app_id }

/-- `github_auth_jwt` (auth.py lines 19-48): builds the claim set, signs it
with the App private key using the RS256 algorithm, and returns the three
GitHub headers with the encoded JWT as Bearer token. -/
def github_auth_jwt (github_app_id github_app_private_key : String)
    (now : Int) (encode : JwtEncoder) : Headers :=
  { accept := "application/vnd.github+json"
    authorization :=
      "Bearer " ++ encode (githubAuthJwtPayload github_app_id now)
        github_app_private_key "RS256"
    api_version := "2022-11-28" }

/-- Instance state of `GitHubInstallationTokenManager`: the three credential
attributes set in `__new__` plus the mutable token cache
(`_token : Optional[str]`, `_expires_at : float`, initially `None` / `0`). -/
structure TMInstance where
  github_app_installation_id : String
  github_app_id : String
  github_app_private_key : String
  cached_token : Option String
  expires_at : Int
deriving DecidableEq, Repr

/-- `GitHubInstallationTokenManager.__new__` (auth.py lines 58-70): under the
class lock, if no instance exists one is created and its attributes are set
from the constructor arguments; otherwise the existing instance is returned
untouched and the arguments are discarded.  The first component is the
returned instance, the second the class attribute `_instance` afterwards. -/
def tokenManagerNew (instance? : Option TMInstance)
    (installation_id app_id private_key : String) :
    TMInstance × Option TMInstance :=
  match instance? with
  | none =>
      let inst : TMInstance :=
        { github_app_installation_id := installation_id
          github_app_id := app_id
          github_app_private_key := private_key
          cached_token := none
          expires_at := 0 }
      (inst, some inst)
  | some inst => (inst, some inst)

/-- The body of the access-token exchange response as read by
`_fetch_new_token`: `data.get("token")` and `data.get("expires_at")`, each
possibly absent. -/
structure ExchangeData where
  token : Option String
  expires_at : Option String
deriving DecidableEq, Repr

/-- Environment a single `get_headers` call observes: the wall clock, the
JWT encoder, the access-token HTTP exchange outcome (`.error` for a raised
`RequestException`) and the `strptime("%Y-%m-%dT%H:%M:%SZ")` parser. -/
structure FetchEnv where
  now : Int
  encode : JwtEncoder
  exchange : Except Unit ExchangeData
  parse : String → Option Int

/-- The staleness test of auth.py line 81:
`not self._token or (self._expires_at - current_time) < 3600`. -/
def staleBool (token : Option String) (expires_at current_time : Int) : Bool :=
  !(strTruthy token) || (expires_at - current_time < 3600)

/-- `_fetch_new_token` (auth.py lines 92-121).  On HTTP failure the raised
exception propagates with the instance unchanged.  On success `_token` is
assigned first; parsing a missing or malformed `expires_at` then raises,
leaving `_token` updated but `_expires_at` stale — the boolean result records
whether an exception was raised. -/
def fetch_new_token (st : TMInstance) (env : FetchEnv) : TMInstance × Bool :=
  match env.exchange with
  | .error _ => (st, true)
  | .ok data =>
      let st1 := { st with cached_token := data.token }
      match data.expires_at with
      | none => (st1, true)
      | some s =>
          match env.parse s with
          | none => (st1, true)
          | some t => ({ st1 with expires_at := t }, false)

/-- The header dictionary of auth.py lines 86-90, built from whatever
`self._token` currently holds (an f-string, so a `None` token prints as
`"None"`). -/
def buildTokenHeaders (token : Option String) : Headers :=
  { accept := "application/vnd.github+json"
    authorization := "Bearer " ++ pyStr token
    api_version := "2022-11-28" }

/-- `get_headers` (auth.py lines 72-90): no lock is taken; the staleness test
runs on the shared fields, `_fetch_new_token` is called when it holds, and
headers are built from the post-call token.  Result: the instance afterwards,
the number of token-exchange network calls issued (`0` or `1`), and the
headers (`none` when an exception propagated). -/
def get_headers (st : TMInstance) (env : FetchEnv) :
    TMInstance × Nat × Option Headers :=
  let current_time := env.now
  if staleBool st.cached_token st.expires_at current_time then
    let r := fetch_new_token st env
    if r.2 then (r.1, 1, none)
    else (r.1, 1, some (buildTokenHeaders r.1.cached_token))
  else
    (st, 0, some (buildTokenHeaders st.cached_token))

/-!
## hooks.py — delivery log pagination, failure selection, retry
-/

/-- One webhook-delivery JSON object as hooks.py reads it: every field is
accessed with `.get`, so each may be absent; `redelivery` defaults to
`False`. -/
structure DeliveryJson where
  id : Option Int
  guid : Option String
  status_code : Option Int
  delivered_at : Option String
  redelivery : Bool
deriving DecidableEq, Repr

/-- The loop of `get_list_of_all_failed_delivery_ids` (hooks.py lines 30-45)
with its two accumulators; an entry contributes its id when
`status_code != 200 and guid not in guids and delivery_id` (the last conjunct
is Python truthiness on the id). -/
def failedIdsLoop : List DeliveryJson → List (Option String) → List Int
  | [], _ => []
  | d :: rest, guids =>
      match d.id with
      | some i =>
          if d.status_code ≠ some 200 ∧ ¬ guids.contains d.guid ∧ i ≠ 0 then
            i :: failedIdsLoop rest (d.guid :: guids)
          else
            failedIdsLoop rest guids
      | none => failedIdsLoop rest guids

/-- `get_list_of_all_failed_delivery_ids` (hooks.py lines 20-45). -/
def get_list_of_all_failed_delivery_ids (deliveries : List DeliveryJson) :
    List Int :=
  failedIdsLoop deliveries []

/-- Python `str.find`: index of the first occurrence, `-1` when absent. -/
def pyFind (s : List Char) (c : Char) : Int :=
  match s.findIdx? (· = c) with
  | none => -1
  | some i => (i : Int)

/-- Normalise one bound of a Python slice `s[a:b]` for a sequence of length
`n`: negative indices count from the end, then clamp to `[0, n]`. -/
def pySliceIdx (n : Nat) (i : Int) : Nat :=
  if i < 0 then ((n : Int) + i).toNat else min i.toNat n

/-- Python slice `s[a:b]`. -/
def pySlice (s : List Char) (a b : Int) : List Char :=
  (s.take (pySliceIdx s.length b)).drop (pySliceIdx s.length a)

/-- Python `pat in s` substring test: `pat` is a prefix of some suffix. -/
def containsSubAux (pat : List Char) : List Char → Bool
  | [] => List.isPrefixOf pat []
  | c :: rest => List.isPrefixOf pat (c :: rest) || containsSubAux pat rest

/-- Python `pat in s` on strings. -/
def containsSub (s pat : String) : Bool :=
  containsSubAux pat.toList s.toList

/-- Python `s.split(',')` (a non-empty separator never drops fields). -/
def splitComma (cur : List Char) : List Char → List (List Char)
  | [] => [cur.reverse]
  | c :: rest =>
      if c = ',' then cur.reverse :: splitComma [] rest
      else splitComma (c :: cur) rest

/-- `part[part.find('<') + 1 : part.find('>')]` of hooks.py line 101. -/
def extractAngle (cs : List Char) : String :=
  String.mk (pySlice cs (pyFind cs '<' + 1) (pyFind cs '>'))

/-- Next-page extraction from the `Link` response header (hooks.py lines
94-102): if the header mentions a next relation, split on commas and take the
angle-bracketed URL of the first part mentioning it. -/
def findNextUrl (link_header : String) : Option String :=
  let pat := "rel=\"next\"".toList
  if containsSubAux pat link_header.toList then
    match (splitComma [] link_header.toList).find?
        (fun p => containsSubAux pat p) with
    | some part => some (extractAngle part)
    | none => none
  else none

/-- Outcome of one `requests.get` on the deliveries URL: `.fail` for any
raised exception (HTTP error status via `raise_for_status`, request
exception, or a non-JSON body), `.ok` for a parsed JSON array plus the `Link`
header (`''` when absent). -/
inductive PageResp where
  | fail
  | ok (data : List DeliveryJson) (link_header : String)

/-- The `for delivery in data` body of hooks.py lines 74-91: skip entries
with a missing or unparseable `delivered_at`; keep those at or after the
cutoff; on the first older one, return what was collected — the Bool records
that early `return deliveries` was taken. -/
def processPage (parse : String → Option Int) (cutoff : Int) :
    List DeliveryJson → List DeliveryJson × Bool
  | [] => ([], false)
  | d :: rest =>
      match d.delivered_at with
      | none => processPage parse cutoff rest
      | some s =>
          match parse s with
          | none => processPage parse cutoff rest
          | some t =>
              if cutoff ≤ t then
                let r := processPage parse cutoff rest
                (d :: r.1, r.2)
              else
                ([], true)

/-- The `while url` loop of hooks.py lines 63-125, one recursion step per
HTTP page fetch (the list of responses is the network's answers in order).
Returns the collected deliveries and the number of pages fetched.  The loop
ends on an exception, an empty JSON array, the early in-page return, or a
missing/falsy next URL; only a truthy next URL continues. -/
def fetchLoop (parse : String → Option Int) (cutoff : Int) :
    List PageResp → List DeliveryJson → List DeliveryJson × Nat
  | [], acc => (acc, 0)
  | r :: rest, acc =>
      match r with
      | .fail => (acc, 1)
      | .ok data link =>
          if data = [] then (acc, 1)
          else
            let p := processPage parse cutoff data
            let acc2 := acc ++ p.1
            if p.2 then (acc2, 1)
            else
              match findNextUrl link with
              | none => (acc2, 1)
              | some u =>
                  if u = "" then (acc2, 1)
                  else
                    let res := fetchLoop parse cutoff rest acc2
                    (res.1, res.2 + 1)

/-- `get_webhook_deliveries` (hooks.py lines 48-128): the cutoff is
`utcnow() - timedelta(days=days_to_reprocess)`, here in epoch seconds. -/
def get_webhook_deliveries (parse : String → Option Int) (now : Int)
    (days_to_reprocess : Int) (responses : List PageResp) :
    List DeliveryJson × Nat :=
  fetchLoop parse (now - days_to_reprocess * 86400) responses []

/-- Outcome of the redelivery POST of hooks.py line 146: an HTTP response
with its status and the result of `response.json()` (`none` when the body is
not JSON, which raises), or a raised connection / timeout / other error. -/
inductive RetryOutcome where
  | resp (status : Int) (jsonBody : Option String)
  | connError
  | timeout
  | otherError

/-- The `timeout=30` argument of the redelivery POST (hooks.py line 146). -/
def retryRequestTimeout : Nat := 30

/-- `retry_webhook_delivery` (hooks.py lines 131-167): every raised exception
is caught and yields `None`; when the POST completes, `response.json()` is
returned whatever the status code (the `202` test on line 147 only logs). -/
def retry_webhook_delivery (outcome : RetryOutcome) : Option String :=
  match outcome with
  | .resp _ jsonBody => jsonBody
  | .connError => none
  | .timeout => none
  | .otherError => none

/-- External world of one `retry_failed_deliveries` run. -/
structure RunEnv where
  now : Int
  encode : JwtEncoder
  parse : String → Option Int
  responses : List PageResp
  retryOutcome : Int → RetryOutcome

/-- What one `retry_failed_deliveries` run did. -/
structure RunResult where
  usedHeaders : Headers
  deliveries : List DeliveryJson
  failedIds : List Int
  retried : List (Int × Option String)

/-- `retry_failed_deliveries` (hooks.py lines 170-202): headers are minted by
`auth.github_auth_jwt(app_id, private_key)` — the App JWT, not the
installation token manager — then deliveries are listed, failed ids selected,
and each retried in order with those same headers. -/
def retry_failed_deliveries (github_app_id github_app_private_key : String)
    (number_of_days_to_reprocess : Int) (env : RunEnv) : RunResult :=
  let auth_headers :=
    github_auth_jwt github_app_id github_app_private_key env.now env.encode
  let deliveries :=
    (get_webhook_deliveries env.parse env.now number_of_days_to_reprocess
      env.responses).1
  let failed := get_list_of_all_failed_delivery_ids deliveries
  { usedHeaders := auth_headers
    deliveries := deliveries
    failedIds := failed
    retried :=
      failed.map (fun i => (i, retry_webhook_delivery (env.retryOutcome i))) }

/-!
## projects.py — GraphQL mutation, and main.py — the webhook handler
-/

/-- Outcome of the GraphQL POST in `add_to_project` (projects.py line 102):
`.httpError` covers a raised `RequestException` (including
`raise_for_status`) or a non-JSON body; `.ok` carries whether the response
JSON has an `errors` key, and the value found at
`data.addProjectV2ItemById.item.id` (`none` when any level of that path is
missing, which raises `KeyError`). -/
inductive GraphQLOutcome where
  | httpError
  | ok (hasErrors : Bool) (itemId : Option String)

/-- `add_to_project` (projects.py lines 74-125): `True` only when the POST
succeeded, the response has no `errors` array and the nested item id is
present; every failure path returns `False`. -/
def add_to_project (outcome : GraphQLOutcome) : Bool :=
  match outcome with
  | .httpError => false
  | .ok true _ => false
  | .ok false none => false
  | .ok false (some _) => true

/-- The `issue` object of a webhook body, read with `.get("node_id")`. -/
structure IssueField where
  node_id : Option String
deriving DecidableEq, Repr

/-- A parsed webhook body as `trigger_workflow` reads it:
`request_body.get("action")` and `request_body.get("issue", {})`. -/
structure WebhookBody where
  action : Option String
  issue : Option IssueField
deriving DecidableEq, Repr

/-- What the handler sends back: a 200 JSON message, or a raised
`HTTPException` with its status code. -/
inductive HandlerResult where
  | ok (message : String)
  | httpError (status : Nat)
deriving DecidableEq, Repr

/-- `trigger_workflow` (main.py lines 148-186).  First component: the
`add_to_project(PROJECT_NODE_ID, node_id, headers)` calls made, as
(project node id, content node id) pairs — the call's boolean result is
computed and discarded (main.py line 172).  `body` is the result of
`await request.json()` (`.error` when it raised, handled by the
catch-all as a 500). -/
def trigger_workflow (project_node_id : String) (event_type : Option String)
    (body : Except Unit WebhookBody) (addOutcome : GraphQLOutcome) :
    List (String × String) × HandlerResult :=
  if event_type = some "issues" then
    match body with
    | .error _ => ([], .httpError 500)
    | .ok b =>
        let action := b.action
        let node_id := (b.issue.getD { node_id := none }).node_id
        match node_id with
        | some nid =>
            if (action = some "opened" ∨ action = some "reopened") ∧ nid ≠ ""
            then
              let _ := add_to_project addOutcome
              ([(project_node_id, nid)], .ok "Issue added to project.")
            else ([], .ok "No action taken.")
        | none => ([], .ok "No action taken.")
  else ([], .ok "No action taken.")

/-!
## Interleaved execution of `get_headers`

`get_headers` takes no lock (the class `Lock` of auth.py line 56 is acquired
only inside `__new__`), so two callers may interleave.  Under the Python GIL
each caller performs two atomic phases of auth.py lines 79-83: first the
staleness test on the shared `_token` / `_expires_at` fields, then — when the
test held — the network exchange plus the store of the fresh token.
-/

/-- The shared token cache plus a counter of token-exchange network calls. -/
structure CacheState where
  token : Option String
  expiresAt : Int
  calls : Nat
deriving DecidableEq, Repr

/-- Program counter of one `get_headers` caller: about to run the staleness
test, about to fetch, or finished. -/
inductive Pc where
  | check
  | fetch
  | done
deriving DecidableEq, Repr

/-- One atomic phase of a caller: the staleness test of auth.py line 81
decides whether to fetch; the fetch issues the network call and stores its
fresh token and expiry. -/
def stepCaller (now : Int) (freshTok : String) (freshExp : Int)
    (c : CacheState) (pc : Pc) : CacheState × Pc :=
  match pc with
  | .check =>
      if staleBool c.token c.expiresAt now then (c, .fetch) else (c, .done)
  | .fetch =>
      ({ token := some freshTok, expiresAt := freshExp, calls := c.calls + 1 },
        .done)
  | .done => (c, .done)

/-- Two concurrent `get_headers` callers A and B over the shared cache. -/
structure Sys where
  cache : CacheState
  pcA : Pc
  pcB : Pc
deriving DecidableEq, Repr

/-- Scheduler step: `true` runs caller A, `false` runs caller B. -/
def stepSys (now : Int) (tokA tokB : String) (expA expB : Int) (s : Sys)
    (who : Bool) : Sys :=
  if who then
    let r := stepCaller now tokA expA s.cache s.pcA
    { s with cache := r.1, pcA := r.2 }
  else
    let r := stepCaller now tokB expB s.cache s.pcB
    { s with cache := r.1, pcB := r.2 }

/-- Run a schedule (a list of scheduler choices) from a system state. -/
def runSched (now : Int) (tokA tokB : String) (expA expB : Int) (s : Sys) :
    List Bool → Sys
  | [] => s
  | w :: ws => runSched now tokA tokB expA expB
      (stepSys now tokA tokB expA expB s w) ws

/-- Both callers start at the staleness test over a cold cache
(`_token = None`, `_expires_at = 0`, no network call made yet). -/
def coldSys : Sys :=
  { cache := { token := none, expiresAt := 0, calls := 0 }
    pcA := .check, pcB := .check }

/-!
## Theorems
-/

/-- Claim C9: `GitHubInstallationTokenManager` is a process-wide singleton
whose constructor arguments are ignored after the first construction: the
first call creates the instance with the given credentials and an empty
token cache, and any later call — whatever installation id, app id or
private key it passes — returns the existing instance unchanged, with its
credentials and cached token intact. -/
theorem token_manager_singleton_reuse :
    (∀ a b c : String,
      tokenManagerNew none a b c =
        ({ github_app_installation_id := a, github_app_id := b,
           github_app_private_key := c, cached_token := none,
           expires_at := 0 },
         some { github_app_installation_id := a, github_app_id := b,
                github_app_private_key := c, cached_token := none,
                expires_at := 0 })) ∧
    (∀ (inst : TMInstance) (a b c : String),
      tokenManagerNew (some inst) a b c = (inst, some inst)) := by
  exact ⟨fun a b c => rfl, fun inst a b c => rfl⟩

/-- Claim C3, counterexample: at `now = 1000` for app id `"A"`, the minted
payload has `iat = 940` and `exp = 1480`, so `exp` is not `iat + 480` (the
issued-at is backdated 60 seconds for clock skew while the expiry is 480
seconds after the current time). -/
theorem jwt_payload_exp_counterexample :
    (githubAuthJwtPayload "A" 1000).iat = 940 ∧
    (githubAuthJwtPayload "A" 1000).exp = 1480 ∧
    ¬ (githubAuthJwtPayload "A" 1000).exp =
        (githubAuthJwtPayload "A" 1000).iat + 480 := by
  refine ⟨rfl, rfl, by decide⟩

/-- Claim C3, amended: every minted JWT payload has `iat = now - 60`
(backdated for clock skew), `exp = now + 480`, hence
`exp = iat + 540`, and `iss` equal to the App id; the Bearer token is the
encoder applied to that payload, the App private key and the algorithm
name `RS256`. -/
theorem jwt_payload_fields (app_id key : String) (now : Int)
    (encode : JwtEncoder) :
    (githubAuthJwtPayload app_id now).iat = now - 60 ∧
    (githubAuthJwtPayload app_id now).exp = now + 480 ∧
    (githubAuthJwtPayload app_id now).exp =
      (githubAuthJwtPayload app_id now).iat + 540 ∧
    (githubAuthJwtPayload app_id now).iss = app_id ∧
    (github_auth_jwt app_id key now encode).authorization =
      "Bearer " ++ encode (githubAuthJwtPayload app_id now) key "RS256" := by
  refine ⟨rfl, by simp [githubAuthJwtPayload], ?_, rfl, rfl⟩
  simp [githubAuthJwtPayload]
  omega

/-- Claim C5: evaluation of `retry_webhook_delivery` at the failing input.
The POST carries a 30-second timeout, and raised connection / timeout /
request errors do yield `None`; but an HTTP 404 response whose body parses as
JSON is returned as-is — `response.json()` is returned for every completed
response, so a non-202 status yields a non-`None` result, contradicting the
claim that only 202 does. -/
theorem retry_non_202_returns_json :
    retryRequestTimeout = 30 ∧
    retry_webhook_delivery .connError = none ∧
    retry_webhook_delivery .timeout = none ∧
    retry_webhook_delivery (.resp 404 (some "notFoundBody")) =
      some "notFoundBody" ∧
    retry_webhook_delivery (.resp 404 (some "notFoundBody")) ≠ none := by
  refine ⟨rfl, rfl, rfl, rfl, by decide⟩

/-- Potential of one caller: a caller that has not finished may still issue
at most one network call. -/
def pcPot : Pc → Nat
  | .done => 0
  | _ => 1

/-- Total potential: calls already made plus calls the two callers may still
make. -/
def sysPot (s : Sys) : Nat :=
  s.cache.calls + pcPot s.pcA + pcPot s.pcB

/-- One caller phase never increases calls made plus calls still possible. -/
theorem stepCaller_pot (now : Int) (tok : String) (ex : Int)
    (c : CacheState) (pc : Pc) :
    (stepCaller now tok ex c pc).1.calls + pcPot (stepCaller now tok ex c pc).2
      ≤ c.calls + pcPot pc := by
  cases pc with
  | check =>
      simp only [stepCaller]
      split <;> simp [pcPot]
  | fetch => simp [stepCaller, pcPot]
  | done => simp [stepCaller, pcPot]

/-- One scheduler step never increases the total potential. -/
theorem stepSys_pot (now : Int) (tA tB : String) (eA eB : Int) (s : Sys)
    (who : Bool) :
    sysPot (stepSys now tA tB eA eB s who) ≤ sysPot s := by
  cases who with
  | true =>
      have h := stepCaller_pot now tA eA s.cache s.pcA
      simp [stepSys, sysPot]
      omega
  | false =>
      have h := stepCaller_pot now tB eB s.cache s.pcB
      simp [stepSys, sysPot]
      omega

/-- Running any schedule never increases the total potential. -/
theorem runSched_pot (now : Int) (tA tB : String) (eA eB : Int) :
    ∀ (sched : List Bool) (s : Sys),
      sysPot (runSched now tA tB eA eB s sched) ≤ sysPot s := by
  intro sched
  induction sched with
  | nil => intro s; exact le_refl _
  | cons w ws ih =>
      intro s
      calc sysPot (runSched now tA tB eA eB (stepSys now tA tB eA eB s w) ws)
          ≤ sysPot (stepSys now tA tB eA eB s w) := ih _
        _ ≤ sysPot s := stepSys_pot now tA tB eA eB s w

/-- Claim C1, counterexample: two `get_headers` callers racing a cold cache
under the schedule check–check–fetch–fetch issue two token-exchange network
calls, not the exactly one the claim guarantees — `get_headers` takes no
lock, so both callers pass the staleness test before either stores a
token. -/
theorem race_two_token_fetches :
    (runSched 0 "tA" "tB" 7200 7200 coldSys
        [true, false, true, false]).cache.calls = 2 ∧
    (runSched 0 "tA" "tB" 7200 7200 coldSys
        [true, false, true, false]).cache.calls ≠ 1 := by
  refine ⟨by decide, by decide⟩

/-- Claim C1, amended: `get_headers` is not serialized — the class lock
guards only `__new__`, and the staleness test and refresh run without any
lock.  Two callers racing a cold cache issue at most two token-exchange
calls in any interleaving; the fully serialized schedule issues exactly one,
and the schedule where both callers pass the staleness test before either
stores a token issues two, so at most one in-flight refresh is not
guaranteed. -/
theorem get_headers_refresh_race_bounds :
    (∀ (sched : List Bool) (now : Int) (tA tB : String) (eA eB : Int),
        (runSched now tA tB eA eB coldSys sched).cache.calls ≤ 2) ∧
    (runSched 0 "tA" "tB" 7200 7200 coldSys
        [true, true, false, false]).cache.calls = 1 ∧
    (runSched 0 "tA" "tB" 7200 7200 coldSys
        [true, false, true, false]).cache.calls = 2 := by
  refine ⟨?_, by decide, by decide⟩
  intro sched now tA tB eA eB
  have h := runSched_pot now tA tB eA eB sched coldSys
  have hcold : sysPot coldSys = 2 := by decide
  have hle : (runSched now tA tB eA eB coldSys sched).cache.calls ≤
      sysPot (runSched now tA tB eA eB coldSys sched) := by
    simp [sysPot]
    omega
  omega

/-- A successful `_fetch_new_token` implies the exchange returned a body and
the cached token is now that body's token field. -/
theorem fetch_new_token_ok (st : TMInstance) (env : FetchEnv) :
    (fetch_new_token st env).2 = false →
    ∃ data : ExchangeData, env.exchange = .ok data ∧
      (fetch_new_token st env).1.cached_token = data.token := by
  intro h
  cases henv : env.exchange with
  | error e => simp [fetch_new_token, henv] at h
  | ok data =>
      cases hexp : data.expires_at with
      | none => simp [fetch_new_token, henv, hexp] at h
      | some s =>
          cases hp : env.parse s with
          | none => simp [fetch_new_token, henv, hexp, hp] at h
          | some t =>
              exact ⟨data, rfl, by simp [fetch_new_token, henv, hexp, hp]⟩

/-- Claim C2: `get_headers` issues a token-exchange network call exactly when
no (truthy) token is cached or the cached expiry is within 3600 seconds of
now; on a cache hit the state is untouched and the headers carry the cached
token; and whenever the refresh path returns headers, the cache now holds the
token the exchange returned and the headers were built from that fresh
token. -/
theorem get_headers_network_call_iff_stale (st : TMInstance) (env : FetchEnv) :
    ((get_headers st env).2.1 = 1 ↔
      staleBool st.cached_token st.expires_at env.now = true) ∧
    (staleBool st.cached_token st.expires_at env.now = false →
      get_headers st env = (st, 0, some (buildTokenHeaders st.cached_token))) ∧
    (∀ h : Headers,
      staleBool st.cached_token st.expires_at env.now = true →
      (get_headers st env).2.2 = some h →
      ∃ data : ExchangeData, env.exchange = .ok data ∧
        (get_headers st env).1.cached_token = data.token ∧
        h = buildTokenHeaders data.token) := by
  by_cases hs : staleBool st.cached_token st.expires_at env.now = true
  · refine ⟨?_, fun hf => absurd hs (by simp [hf]), ?_⟩
    · simp only [get_headers, hs, if_pos]
      split <;> simp [hs]
    · intro h _ hh
      simp only [get_headers, hs, if_pos] at hh ⊢
      by_cases hr : (fetch_new_token st env).2 = true
      · simp [hr] at hh
      · have hr2 : (fetch_new_token st env).2 = false := by
          simpa using hr
        obtain ⟨data, hd, htok⟩ := fetch_new_token_ok st env hr2
        simp only [hr2, Bool.false_eq_true, if_neg, reduceIte,
          Option.some.injEq] at hh
        exact ⟨data, hd, by simp [hr2, htok], by rw [← hh, htok]⟩
  · have hf : staleBool st.cached_token st.expires_at env.now = false := by
      simpa using hs
    refine ⟨?_, fun _ => ?_, fun h ht _ => absurd ht hs⟩
    · simp [get_headers, hf]
    · simp [get_headers, hf]

/-- A cold token manager instance (as `__new__` initialises it). -/
def stCold : TMInstance :=
  { github_app_installation_id := "i", github_app_id := "a",
    github_app_private_key := "k", cached_token := none, expires_at := 0 }

/-- An instance holding a cached token far from expiry at time 0. -/
def stFresh : TMInstance :=
  { github_app_installation_id := "i", github_app_id := "a",
    github_app_private_key := "k", cached_token := some "CACHED",
    expires_at := 999999 }

/-- An environment whose exchange succeeds with token `TOK`. -/
def envOkX : FetchEnv :=
  { now := 0, encode := fun _ _ _ => "J",
    exchange := .ok { token := some "TOK", expires_at := some "e" },
    parse := fun _ => some 999999 }

theorem get_headers_network_call_iff_stale_witness :
    ((get_headers stCold envOkX).2.1 = 1 ↔
      staleBool stCold.cached_token stCold.expires_at envOkX.now = true) ∧
    (∃ data : ExchangeData, envOkX.exchange = .ok data ∧
      (get_headers stCold envOkX).1.cached_token = data.token ∧
      buildTokenHeaders (some "TOK") = buildTokenHeaders data.token) ∧
    get_headers stFresh envOkX =
      (stFresh, 0, some (buildTokenHeaders (some "CACHED"))) := by
  refine ⟨(get_headers_network_call_iff_stale stCold envOkX).1, ?_, ?_⟩
  · exact (get_headers_network_call_iff_stale stCold envOkX).2.2
      (buildTokenHeaders (some "TOK")) (by decide) (by decide)
  · exact (get_headers_network_call_iff_stale stFresh envOkX).2.1 (by decide)

/-- Soundness of the failed-id selection loop: every selected id comes from a
listed delivery whose status is not 200 and whose id is truthy. -/
theorem failedIdsLoop_sound :
    ∀ (ds : List DeliveryJson) (guids : List (Option String)) (i : Int),
      i ∈ failedIdsLoop ds guids →
      ∃ d ∈ ds, d.id = some i ∧ d.status_code ≠ some 200 ∧ i ≠ 0 := by
  intro ds
  induction ds with
  | nil => intro guids i h; simp [failedIdsLoop] at h
  | cons d rest ih =>
      intro guids i h
      cases hid : d.id with
      | none =>
          simp only [failedIdsLoop, hid] at h
          obtain ⟨d2, hmem, hrest⟩ := ih guids i h
          exact ⟨d2, List.mem_cons_of_mem d hmem, hrest⟩
      | some i0 =>
          simp only [failedIdsLoop, hid] at h
          by_cases hc : d.status_code ≠ some 200 ∧
              ¬ guids.contains d.guid ∧ i0 ≠ 0
          · rw [if_pos hc] at h
            rcases List.mem_cons.mp h with heq | hmem
            · exact ⟨d, List.mem_cons_self d rest,
                by rw [hid, heq], hc.1, heq ▸ hc.2.2⟩
            · obtain ⟨d2, hm2, hrest⟩ := ih _ i hmem
              exact ⟨d2, List.mem_cons_of_mem d hm2, hrest⟩
          · rw [if_neg hc] at h
            obtain ⟨d2, hm2, hrest⟩ := ih _ i h
            exact ⟨d2, List.mem_cons_of_mem d hm2, hrest⟩

/-- When every delivery has status 200, no id is selected, whatever the guid
accumulator. -/
theorem failedIdsLoop_all200 :
    ∀ (ds : List DeliveryJson) (guids : List (Option String)),
      (∀ d ∈ ds, d.status_code = some 200) →
      failedIdsLoop ds guids = [] := by
  intro ds
  induction ds with
  | nil => intro guids _; rfl
  | cons d rest ih =>
      intro guids hall
      have hd : d.status_code = some 200 := hall d (List.mem_cons_self d rest)
      have hrest : ∀ d2 ∈ rest, d2.status_code = some 200 :=
        fun d2 hm => hall d2 (List.mem_cons_of_mem d hm)
      cases hid : d.id with
      | none => simp only [failedIdsLoop, hid]; exact ih guids hrest
      | some i0 =>
          simp only [failedIdsLoop, hid]
          rw [if_neg (by simp [hd])]
          exact ih guids hrest

/-- Claim C6: `get_list_of_all_failed_delivery_ids` selects only ids of
entries whose status is not 200 (with a truthy id); an all-200 list yields
nothing; and two entries sharing one guid, both with status 500, yield
exactly the first entry's id. -/
theorem select_failed_ids_spec :
    (∀ (deliveries : List DeliveryJson) (i : Int),
        i ∈ get_list_of_all_failed_delivery_ids deliveries →
        ∃ d ∈ deliveries, d.id = some i ∧ d.status_code ≠ some 200 ∧ i ≠ 0) ∧
    (∀ deliveries : List DeliveryJson,
        (∀ d ∈ deliveries, d.status_code = some 200) →
        get_list_of_all_failed_delivery_ids deliveries = []) ∧
    (∀ (g : Option String) (i1 i2 : Int), i1 ≠ 0 →
        get_list_of_all_failed_delivery_ids
          [{ id := some i1, guid := g, status_code := some 500,
             delivered_at := none, redelivery := false },
           { id := some i2, guid := g, status_code := some 500,
             delivered_at := none, redelivery := true }] = [i1]) := by
  refine ⟨fun ds i h => failedIdsLoop_sound ds [] i h,
    fun ds h => failedIdsLoop_all200 ds [] h, ?_⟩
  intro g i1 i2 h1
  have hcontains : ([g] : List (Option String)).contains g = true := by
    simp [List.contains]
  simp only [get_list_of_all_failed_delivery_ids, failedIdsLoop]
  rw [if_pos ⟨by simp, by simp, h1⟩, if_neg (by simp [hcontains])]

theorem select_failed_ids_spec_witness :
    (∃ d ∈ ([{ id := some 7, guid := some "a", status_code := some 500,
               delivered_at := none, redelivery := false }] :
            List DeliveryJson),
        d.id = some 7 ∧ d.status_code ≠ some 200 ∧ (7 : Int) ≠ 0) ∧
    get_list_of_all_failed_delivery_ids
      [{ id := some 7, guid := some "a", status_code := some 200,
         delivered_at := none, redelivery := false }] = [] ∧
    get_list_of_all_failed_delivery_ids
      [{ id := some 1, guid := some "a", status_code := some 500,
         delivered_at := none, redelivery := false },
       { id := some 2, guid := some "a", status_code := some 500,
         delivered_at := none, redelivery := true }] = [1] := by
  refine ⟨select_failed_ids_spec.1 _ 7 (by decide),
    select_failed_ids_spec.2.1 _ (by decide),
    select_failed_ids_spec.2.2 (some "a") 1 2 (by decide)⟩

/-- Every delivery a page scan keeps has a parseable timestamp at or after
the cutoff. -/
theorem processPage_member_in_window (parse : String → Option Int)
    (cutoff : Int) :
    ∀ (data : List DeliveryJson),
      ∀ d ∈ (processPage parse cutoff data).1,
      ∃ s t, d.delivered_at = some s ∧ parse s = some t ∧ cutoff ≤ t := by
  intro data
  induction data with
  | nil => intro d h; simp [processPage] at h
  | cons d0 rest ih =>
      intro d h
      cases hda : d0.delivered_at with
      | none =>
          simp only [processPage, hda] at h
          exact ih d h
      | some s =>
          simp only [processPage, hda] at h
          cases hp : parse s with
          | none => simp only [hp] at h; exact ih d h
          | some t =>
              simp only [hp] at h
              by_cases hcut : cutoff ≤ t
              · rw [if_pos hcut] at h
                rcases List.mem_cons.mp h with heq | hmem
                · exact ⟨s, t, by rw [heq]; exact hda, hp, hcut⟩
                · exact ih d hmem
              · rw [if_neg hcut] at h
                simp at h

/-- Every delivery the pagination loop returns is either from the initial
accumulator or in the window. -/
theorem fetchLoop_member_in_window (parse : String → Option Int)
    (cutoff : Int) :
    ∀ (responses : List PageResp) (acc : List DeliveryJson),
      (∀ d ∈ acc,
        ∃ s t, d.delivered_at = some s ∧ parse s = some t ∧ cutoff ≤ t) →
      ∀ d ∈ (fetchLoop parse cutoff responses acc).1,
      ∃ s t, d.delivered_at = some s ∧ parse s = some t ∧ cutoff ≤ t := by
  intro responses
  induction responses with
  | nil => intro acc hacc d h; exact hacc d h
  | cons r rest ih =>
      intro acc hacc d h
      have hacc2 : ∀ (p : List DeliveryJson), ∀ d2 ∈ acc ++ p,
          (∀ e ∈ p,
            ∃ s t, e.delivered_at = some s ∧ parse s = some t ∧ cutoff ≤ t) →
          ∃ s t, d2.delivered_at = some s ∧ parse s = some t ∧ cutoff ≤ t := by
        intro p d2 hm hp
        rcases List.mem_append.mp hm with h1 | h2
        · exact hacc d2 h1
        · exact hp d2 h2
      cases r with
      | fail => exact hacc d (by simpa [fetchLoop] using h)
      | ok data link =>
          by_cases hdata : data = []
          · rw [hdata] at h
            simp only [fetchLoop, if_pos rfl] at h
            exact hacc d h
          · simp only [fetchLoop, if_neg hdata] at h
            by_cases hstop : (processPage parse cutoff data).2 = true
            · rw [if_pos hstop] at h
              exact hacc2 _ d h (processPage_member_in_window parse cutoff data)
            · rw [if_neg hstop] at h
              cases hnu : findNextUrl link with
              | none =>
                  simp only [hnu] at h
                  exact hacc2 _ d h
                    (processPage_member_in_window parse cutoff data)
              | some u =>
                  simp only [hnu] at h
                  by_cases hu : u = ""
                  · rw [if_pos hu] at h
                    exact hacc2 _ d h
                      (processPage_member_in_window parse cutoff data)
                  · rw [if_neg hu] at h
                    refine ih _ ?_ d h
                    intro d2 hm
                    exact hacc2 _ d2 hm
                      (processPage_member_in_window parse cutoff data)

/-- Claim C7: when a page contains a delivery older than the cutoff, the loop
returns everything collected so far and fetches no further page — whatever
the `Link` header says and whatever later responses would hold — and
consequently every returned delivery has a parseable `delivered_at` within
`now - window_days`. -/
theorem pagination_stops_at_old_delivery :
    (∀ (parse : String → Option Int) (cutoff : Int)
        (data : List DeliveryJson) (link : String) (rest : List PageResp)
        (acc : List DeliveryJson),
        (processPage parse cutoff data).2 = true →
        fetchLoop parse cutoff (PageResp.ok data link :: rest) acc =
          (acc ++ (processPage parse cutoff data).1, 1)) ∧
    (∀ (parse : String → Option Int) (now days : Int)
        (responses : List PageResp),
        ∀ d ∈ (get_webhook_deliveries parse now days responses).1,
        ∃ s t, d.delivered_at = some s ∧ parse s = some t ∧
          now - days * 86400 ≤ t) := by
  constructor
  · intro parse cutoff data link rest acc hstop
    have hne : data ≠ [] := by
      intro h
      rw [h] at hstop
      simp [processPage] at hstop
    simp [fetchLoop, hne, hstop]
  · intro parse now days responses d h
    exact fetchLoop_member_in_window parse (now - days * 86400) responses []
      (by intro d2 h2; simp at h2) d h

/-- A concrete timestamp parser for the witness: `new` is epoch 100, `old`
epoch 0. -/
def parseEx : String → Option Int :=
  fun s => if s = "new" then some 100 else if s = "old" then some 0 else none

/-- A page whose second delivery is older than cutoff 50. -/
def dataEx : List DeliveryJson :=
  [{ id := some 1, guid := none, status_code := some 500,
     delivered_at := some "new", redelivery := false },
   { id := some 2, guid := none, status_code := some 500,
     delivered_at := some "old", redelivery := false }]

/-- A `Link` header that does advertise a next page. -/
def linkEx : String := "<nextpage>; rel=\"next\""

theorem pagination_stops_at_old_delivery_witness :
    fetchLoop parseEx 50 [PageResp.ok dataEx linkEx, PageResp.fail] [] =
      ([{ id := some 1, guid := none, status_code := some 500,
          delivered_at := some "new", redelivery := false }], 1) ∧
    (∃ s t,
      ({ id := some 1, guid := none, status_code := some 500,
         delivered_at := some "new", redelivery := false } :
          DeliveryJson).delivered_at = some s ∧
      parseEx s = some t ∧ (50 : Int) - 0 * 86400 ≤ t) := by
  constructor
  · rw [pagination_stops_at_old_delivery.1 parseEx 50 dataEx linkEx
      [PageResp.fail] [] (by decide)]
    decide
  · exact pagination_stops_at_old_delivery.2 parseEx 50 0
      [PageResp.ok dataEx linkEx, PageResp.fail] _ (by decide)

/-- Claim C8: on an `issues` event whose body has action `opened` or
`reopened` and a truthy issue node id, the handler makes exactly one
`add_to_project` call with that node id as content id; for any other action
it makes no call and answers with the no-action message. -/
theorem trigger_workflow_dispatch :
    (∀ (proj : String) (b : WebhookBody) (o : GraphQLOutcome) (nid : String),
        (b.action = some "opened" ∨ b.action = some "reopened") →
        b.issue = some { node_id := some nid } → nid ≠ "" →
        trigger_workflow proj (some "issues") (.ok b) o =
          ([(proj, nid)], .ok "Issue added to project.")) ∧
    (∀ (proj : String) (b : WebhookBody) (o : GraphQLOutcome),
        b.action ≠ some "opened" → b.action ≠ some "reopened" →
        trigger_workflow proj (some "issues") (.ok b) o =
          ([], .ok "No action taken.")) := by
  constructor
  · intro proj b o nid hact hissue hne
    rcases hact with h | h <;> simp [trigger_workflow, hissue, h, hne]
  · intro proj b o h1 h2
    cases hn : (b.issue.getD { node_id := none }).node_id with
    | none => simp [trigger_workflow, hn]
    | some nid => simp [trigger_workflow, hn, h1, h2]

theorem trigger_workflow_dispatch_witness :
    trigger_workflow "P" (some "issues")
      (.ok { action := some "opened", issue := some { node_id := some "I_1" } })
      (.ok false (some "item")) =
      ([("P", "I_1")], .ok "Issue added to project.") ∧
    trigger_workflow "P" (some "issues")
      (.ok { action := some "closed", issue := some { node_id := some "I_1" } })
      (.ok false (some "item")) =
      ([], .ok "No action taken.") := by
  constructor
  · exact trigger_workflow_dispatch.1 "P" _ _ "I_1" (Or.inl rfl) rfl
      (by decide)
  · exact trigger_workflow_dispatch.2 "P" _ _ (by decide) (by decide)

/-- Claim C10: on an `opened`/`reopened` issues event with a truthy node id
the handler's response is the added-to-project message whatever the GraphQL
mutation outcome — the handler's whole result does not depend on that
outcome, and each of `add_to_project`'s failure shapes (HTTP failure, a
GraphQL `errors` array, a missing nested item id) indeed returns `False`,
which the handler discards. -/
theorem trigger_workflow_ignores_add_result :
    (∀ (proj : String) (b : WebhookBody) (o1 o2 : GraphQLOutcome)
        (nid : String),
        (b.action = some "opened" ∨ b.action = some "reopened") →
        b.issue = some { node_id := some nid } → nid ≠ "" →
        (trigger_workflow proj (some "issues") (.ok b) o1).2 =
          .ok "Issue added to project." ∧
        trigger_workflow proj (some "issues") (.ok b) o1 =
          trigger_workflow proj (some "issues") (.ok b) o2) ∧
    (add_to_project .httpError = false ∧
      (∀ itemId : Option String, add_to_project (.ok true itemId) = false) ∧
      add_to_project (.ok false none) = false) := by
  refine ⟨?_, rfl, fun itemId => rfl, rfl⟩
  intro proj b o1 o2 nid hact hissue hne
  rcases hact with h | h <;>
    exact ⟨by simp [trigger_workflow, hissue, h, hne],
      by simp [trigger_workflow, hissue, h, hne]⟩

theorem trigger_workflow_ignores_add_result_witness :
    (trigger_workflow "P" (some "issues")
      (.ok { action := some "reopened",
             issue := some { node_id := some "I_1" } })
      GraphQLOutcome.httpError).2 = .ok "Issue added to project." ∧
    trigger_workflow "P" (some "issues")
      (.ok { action := some "reopened",
             issue := some { node_id := some "I_1" } })
      GraphQLOutcome.httpError =
    trigger_workflow "P" (some "issues")
      (.ok { action := some "reopened",
             issue := some { node_id := some "I_1" } })
      (GraphQLOutcome.ok false (some "item")) := by
  exact trigger_workflow_ignores_add_result.1 "P" _
    GraphQLOutcome.httpError (GraphQLOutcome.ok false (some "item")) "I_1"
    (Or.inr rfl) rfl (by decide)

/-- A JWT encoder that always yields the token `JWTX`. -/
def encJ : JwtEncoder := fun _ _ _ => "JWTX"

/-- A concrete retry-run environment over an empty delivery log. -/
def runEnvC : RunEnv :=
  { now := 0, encode := encJ, parse := fun _ => none, responses := [],
    retryOutcome := fun _ => RetryOutcome.otherError }

/-- A token-manager instance holding a valid installation token `INSTALL`. -/
def mgrC : TMInstance :=
  { github_app_installation_id := "inst", github_app_id := "app",
    github_app_private_key := "key", cached_token := some "INSTALL",
    expires_at := 999999 }

/-- A fetch environment matching `runEnvC`'s clock and encoder. -/
def fenvC : FetchEnv :=
  { now := 0, encode := encJ,
    exchange := .ok { token := some "X", expires_at := some "e" },
    parse := fun _ => some 0 }

/-- Claim C4, counterexample: the retry job's headers are the App-JWT headers
of `github_auth_jwt` — `Bearer JWTX` under the encoder `encJ` — while the
token manager's `get_headers`, on an instance holding a valid installation
token and the same clock and encoder, returns `Bearer INSTALL`; the run's
headers are not the manager's. -/
theorem run_headers_not_from_token_manager :
    (retry_failed_deliveries "app" "key" 3 runEnvC).usedHeaders =
      github_auth_jwt "app" "key" 0 encJ ∧
    (retry_failed_deliveries "app" "key" 3 runEnvC).usedHeaders.authorization =
      "Bearer JWTX" ∧
    (get_headers mgrC fenvC).2.2 = some (buildTokenHeaders (some "INSTALL")) ∧
    (buildTokenHeaders (some "INSTALL")).authorization = "Bearer INSTALL" ∧
    (retry_failed_deliveries "app" "key" 3 runEnvC).usedHeaders ≠
      buildTokenHeaders (some "INSTALL") := by
  refine ⟨rfl, rfl, by decide, rfl, by decide⟩

/-- Claim C4, amended: `retry_failed_deliveries` mints its headers with
`github_auth_jwt` from the App id and private key — an App JWT, not the
installation-token manager's `get_headers` — then lists deliveries, selects
the failed ids from them, and retries each selected id sequentially with
those same headers; whenever some installation token's Bearer differs from
the minted JWT Bearer, the run's headers differ from token-built headers. -/
theorem run_orchestration (app_id key : String) (days : Int) (env : RunEnv) :
    (retry_failed_deliveries app_id key days env).usedHeaders =
      github_auth_jwt app_id key env.now env.encode ∧
    (retry_failed_deliveries app_id key days env).deliveries =
      (get_webhook_deliveries env.parse env.now days env.responses).1 ∧
    (retry_failed_deliveries app_id key days env).failedIds =
      get_list_of_all_failed_delivery_ids
        (retry_failed_deliveries app_id key days env).deliveries ∧
    (retry_failed_deliveries app_id key days env).retried =
      (retry_failed_deliveries app_id key days env).failedIds.map
        (fun i => (i, retry_webhook_delivery (env.retryOutcome i))) ∧
    (∀ tok : String,
      (retry_failed_deliveries app_id key days env).usedHeaders.authorization ≠
        "Bearer " ++ tok →
      (retry_failed_deliveries app_id key days env).usedHeaders ≠
        buildTokenHeaders (some tok)) := by
  refine ⟨rfl, rfl, rfl, rfl, ?_⟩
  intro tok hne heq
  exact hne (by rw [heq]; rfl)

theorem run_orchestration_witness :
    (retry_failed_deliveries "app" "key" 3 runEnvC).usedHeaders ≠
      buildTokenHeaders (some "INSTALL") := by
  exact (run_orchestration "app" "key" 3 runEnvC).2.2.2.2 "INSTALL" (by decide)
